import Mathlib

/-!
Verification of the batch classification engine of the LLM_SLWI systematic-review
pipeline, shallowly embedded from
`src/apps/systematic_review/utils/openai_analyzer.py` and
`src/llm_slwi/settings.py`.

Modelling conventions:
* Python floats (prices, costs) are modelled as exact rationals `ℚ`.
* Wall-clock time in the rate limiter is modelled on a fake clock measured in
  hundredths of a second, so the source's constants `60.0` s and the `0.05` s
  wait buffer become the exact naturals `6000` and `5`.
* Exceptions are modelled with `Except`; the exception classes that matter to
  the retry logic are collapsed into `PyError`.
* The source's diagnostic note strings are kept verbatim (they are Chinese);
  the spec renders them in English.  Correspondence:
  - "模型调用失败"     —  "invocation failed after retries"
  - "返回格式非 JSON"  —  "non-JSON response"
  - "返回 decision 非法" —  "invalid decision value"
  - "模型配置缺失"     —  "model configuration missing"
  - "并发处理异常"     —  "concurrent task exception"
  - "未知逻辑错误"     —  unreachable fallback of `review_single`
* Logging calls are side effects; where a claim talks about log severity the
  model returns the severity of the emitted log explicitly.
-/

namespace LLMSLWI

/-- The screening decision enumeration `Decision` of openai_analyzer.py: a
string-valued enum with members `INCLUDE = "include"`, `EXCLUDE = "exclude"`,
`UNSURE = "unsure"`. -/
inductive Decision
  | INCLUDE
  | EXCLUDE
  | UNSURE
deriving DecidableEq, Repr

/-- The string value carried by each member of the `Decision` enum. -/
def Decision.value : Decision → String
  | .INCLUDE => "include"
  | .EXCLUDE => "exclude"
  | .UNSURE => "unsure"

/-- The whitespace set stripped by Python `str.strip()` (its ASCII part:
space, tab, newline, carriage return, vertical tab, form feed; Python also
strips further Unicode whitespace, which none of the claims exercise). -/
def isPySpace (c : Char) : Bool :=
  c = ' ' || c = '\t' || c = '\n' || c = '\r' || c = '\x0b' || c = '\x0c'

/-- Python `str.strip()`: remove leading and trailing whitespace. -/
def pyStrip (s : String) : String :=
  ⟨((s.data.dropWhile isPySpace).reverse.dropWhile isPySpace).reverse⟩

/-- Python `str.lower()` restricted to ASCII case mapping, which is all the
decision labels use. -/
def pyLower (s : String) : String :=
  ⟨s.data.map Char.toLower⟩

/-- Membership test and constructor access of the enum's
`_value2member_map_`: the map sends exactly the three value strings to their
members. -/
def Decision.ofValue? (s : String) : Option Decision :=
  if s = "include" then some .INCLUDE
  else if s = "exclude" then some .EXCLUDE
  else if s = "unsure" then some .UNSURE
  else none

/-- `Decision.from_raw` (openai_analyzer.py lines 49–70): `None` returns
`UNSURE`; otherwise the label is stripped and lowercased and looked up in
`_value2member_map_`, defaulting to `UNSURE` (with a warning log, a side
effect not modelled here). -/
def Decision.from_raw : Option String → Decision
  | none => .UNSURE
  | some raw =>
    match Decision.ofValue? (pyLower (pyStrip raw)) with
    | some d => d
    | none => .UNSURE

/-- The exception classes that matter to the retry logic: `transient` stands
for the network/timeout/provider-side errors the spec calls retryable;
`attributeError` is the `AttributeError` raised by calling `.strip()` on a
non-string `decision` field (invoke_model line 385).  The backoff decorator in
the source catches the base class `Exception`, hence every `PyError`. -/
inductive PyError
  | transient
  | attributeError
deriving DecidableEq, Repr

/-- Log severities used by the modelled code paths. -/
inductive Severity
  | debug
  | warning
  | error
deriving DecidableEq, Repr

/-- The loop of `backoff.on_exception(backoff.expo, Exception,
max_tries = maxTries)` around `inner_call` (call_with_retries lines 290–299):
`attempt i` is the i-th underlying call of `invoke_model`; a successful call
returns at once, a raising call is retried until `maxTries` calls have been
made, after which the last exception propagates.  The result is paired with
the number of underlying calls made.  (With `max_tries = 0` the library never
gives up; the embedding is only used with at least one try and returns an
immediate failure at fuel 0, an unreachable case under that hypothesis.) -/
def backoffRun {R : Type} (attempt : Nat → Except PyError R) :
    Nat → Nat → Except PyError R × Nat
  | _, 0 => (Except.error PyError.transient, 0)
  | i, n + 1 =>
    match attempt i with
    | Except.ok r => (Except.ok r, 1)
    | Except.error e =>
      if n = 0 then (Except.error e, 1)
      else
        let rest := backoffRun attempt (i + 1) n
        (rest.1, rest.2 + 1)

/-- `OpenAIClient.call_with_retries` (lines 280–306): run the backoff-wrapped
inner call; when it still raises after all tries, catch the exception, log at
error severity and degrade to `(UNSURE, "模型调用失败")` (the spec's
"invocation failed after retries").  Returns the classification result, the
number of underlying calls made, and the severity of the final log emitted by
this function, if any. -/
def call_with_retries (attempt : Nat → Except PyError (Decision × String))
    (maxRetries : Nat) : (Decision × String) × Nat × Option Severity :=
  match backoffRun attempt 0 maxRetries with
  | (Except.ok r, c) => (r, c, none)
  | (Except.error _, c) => ((Decision.UNSURE, "模型调用失败"), c, some Severity.error)

/-- The JSON value found in the `decision` field of a parsed response body:
either a JSON string or any non-string value (number, null, object, array,
boolean), on which Python's `.strip()` raises `AttributeError`. -/
inductive JDecision
  | jstr : String → JDecision
  | nonString : JDecision
deriving DecidableEq, Repr

/-- The provider response content as seen by step 6 of invoke_model:
`notJson` when `json.loads` fails; otherwise `jsonResp dec notesDump` where
`dec` is the `decision` field (`none` when the key is missing, in which case
Python substitutes the default `""`), and `notesDump` is the `json.dumps`
serialization of the `notes` field, kept abstract as its serialized string
because no claim inspects its structure. -/
inductive RespBody
  | notJson
  | jsonResp (dec : Option JDecision) (notesDump : String)
deriving DecidableEq, Repr

/-- One underlying provider interaction: either the API call raises an
exception, or it returns a response body. -/
inductive ProviderOutcome
  | raiseExc (e : PyError)
  | respond (body : RespBody)
deriving DecidableEq, Repr

/-- Steps 6–7 of `OpenAIClient.invoke_model` (lines 374–390): parse the
content as JSON — on failure return `(UNSURE, "返回格式非 JSON")` (the spec's
"non-JSON response") as an ordinary value; otherwise take
`parsed.get("decision", "")`, call `.strip().lower()` on it (raising
`AttributeError` when it is not a string), and match it against
`_value2member_map_`, returning `(UNSURE, "返回 decision 非法")` (the spec's
"invalid decision value") on a mismatch, else the decision with the dumped
notes. -/
def parseModelResponse : RespBody → Except PyError (Decision × String)
  | RespBody.notJson => Except.ok (Decision.UNSURE, "返回格式非 JSON")
  | RespBody.jsonResp dec notesDump =>
    match dec.getD (JDecision.jstr "") with
    | JDecision.jstr s =>
      match Decision.ofValue? (pyLower (pyStrip s)) with
      | some d => Except.ok (d, notesDump)
      | none => Except.ok (Decision.UNSURE, "返回 decision 非法")
    | JDecision.nonString => Except.error PyError.attributeError

/-- `OpenAIClient.invoke_model` as a function of the provider interaction
outcome: an exception raised during the API call propagates to the backoff
wrapper (lines 344–347); a response body goes through parsing (steps 6–7).
Steps 1–5 (token estimation, rate limiting, usage accounting) are state
effects modelled separately by `rate_limit` and `usageAccounting`; they do not
alter the returned classification. -/
def invoke_model : ProviderOutcome → Except PyError (Decision × String)
  | ProviderOutcome.raiseExc e => Except.error e
  | ProviderOutcome.respond body => parseModelResponse body

/-- The stage loop of `OpenAIClient.review_single` (lines 179–192),
parametric in the stage list (the active line 180 iterates over
`["stage3"]`).  `call text model` abstracts `call_with_retries`; `modelMap`
is `self.model_map.get`.  The guard `if not model_name` treats a missing
entry and an empty-string entry alike, returning
`(UNSURE, "模型配置缺失")` (the spec's "model configuration missing") before
any call.  Returns the result together with the list of model names actually
passed to `call_with_retries`, in call order — the rate limiter is reached
only inside `invoke_model`, itself reached only through `call_with_retries`,
so an empty list also means no rate-limiter admission. -/
def reviewStages (call : String → String → Decision × String)
    (modelMap : String → Option String) (text : String) :
    List String → (Decision × String) × List String
  | [] => ((Decision.UNSURE, "未知逻辑错误"), [])
  | stage :: rest =>
    match modelMap stage with
    | none => ((Decision.UNSURE, "模型配置缺失"), [])
    | some m =>
      if m = "" then ((Decision.UNSURE, "模型配置缺失"), [])
      else
        let r := call text m
        if r.1 ≠ Decision.UNSURE ∨ stage = "stage3" then (r, [m])
        else
          let tailRun := reviewStages call modelMap text rest
          (tailRun.1, m :: tailRun.2)

/-- `OpenAIClient.review_single`: the stage loop over the active stage list
`["stage3"]` (line 180; the three-stage list on line 179 is commented out in
the source). -/
def review_single (call : String → String → Decision × String)
    (modelMap : String → Option String) (text : String) :
    (Decision × String) × List String :=
  reviewStages call modelMap text ["stage3"]

/-- `OpenAIClient.review_batch` (lines 194–219).  `f` abstracts
`review_single` (a total function: `call_with_retries` catches every
exception, so a worker task does not raise and the `except` branch of lines
215–218 is unreachable for the modelled code).  With `max_workers ≤ 1` the
texts are processed serially; otherwise a result slot list pre-filled with
`(UNSURE, "")` is written at position `idx` for each completed future, where
`order` is the order in which `as_completed` yields the futures — an
arbitrary enumeration of the input indices. -/
def review_batch (maxWorkers : Nat) (f : String → Decision × String)
    (texts : List String) (order : List (Fin texts.length)) :
    List (Decision × String) :=
  if maxWorkers ≤ 1 then texts.map f
  else
    order.foldl (fun results idx => results.set idx.val (f (texts.get idx)))
      (List.replicate texts.length (Decision.UNSURE, ""))

/-- `OpenAIClient.rate_limit` (lines 221–245) on the fake clock (hundredths
of a second; `60.0` s = `6000`, the 50 ms buffer = `5`).  Input: the
`call_timestamps` list and the clock value `now` at the moment of the call.
Output: the updated `call_timestamps` and the clock value at which the
request is actually sent (after the single sleep, if one happens).  Faithful
details: with `tpm_limit` falsy the function returns without recording; the
purge keeps entries with `now - ts < 6000`; when the purged sum plus the
request exceeds the limit it sleeps `6000 - (now - earliest) + 5` once and
then admits unconditionally; the recorded timestamp is the pre-sleep `now`.
(When the wait branch is reached with an empty purged window the source
raises on `min` of an empty sequence; that branch is unreachable when every
request is at most `tpm_limit`, as in all theorems below, and the embedding
defaults `earliest` to `now` there.) -/
def rate_limit (tpmLimit : Nat) (timestamps : List (Nat × Nat))
    (now tokensRequested : Nat) : List (Nat × Nat) × Nat :=
  if tpmLimit = 0 then (timestamps, now)
  else
    let live := timestamps.filter (fun p => now - p.1 < 6000)
    let used := (live.map Prod.snd).sum
    if used + tokensRequested > tpmLimit then
      let earliest := ((live.map Prod.fst).min?).getD now
      (live ++ [(now, tokensRequested)], now + (6000 - (now - earliest) + 5))
    else
      (live ++ [(now, tokensRequested)], now)

/-- Drive `rate_limit` over a sequence of requests `(arrivalTime, tokens)`
on the fake clock, as a single-threaded caller would: each call starts at
`max(arrival, clock)` because the caller cannot issue the next call before
the previous one returned from its sleep.  Returns the admissions — the
`(sendTime, tokens)` pairs at which each request is actually sent. -/
def runRateLimiterAux (tpmLimit : Nat) :
    List (Nat × Nat) → List (Nat × Nat) → Nat → List (Nat × Nat)
  | [], _, _ => []
  | (arr, tok) :: rest, timestamps, clock =>
    let now := max clock arr
    let step := rate_limit tpmLimit timestamps now tok
    (step.2, tok) :: runRateLimiterAux tpmLimit rest step.1 step.2

/-- Run the rate limiter from the initial state (empty window, clock 0). -/
def runRateLimiter (tpmLimit : Nat) (reqs : List (Nat × Nat)) :
    List (Nat × Nat) :=
  runRateLimiterAux tpmLimit reqs [] 0

/-- Sum of tokens admitted in the trailing 60-second window ending at `T`
(times in hundredths of a second): admissions with `T - 6000 < t ≤ T`. -/
def windowSum (adms : List (Nat × Nat)) (T : Nat) : Nat :=
  ((adms.filter (fun p => decide (T < p.1 + 6000 ∧ p.1 ≤ T))).map Prod.snd).sum

/-- The cost/usage accumulator state of `OpenAIClient` (lines 163–164):
`total_tokens` and `total_cost`. -/
structure UsageTotals where
  total_tokens : Nat
  total_cost : ℚ
deriving DecidableEq, Repr

/-- `PRICE_PER_1K_TOKENS` from settings.py (USD per 1000 tokens), with the
float prices as exact rationals. -/
def PRICE_PER_1K_TOKENS : List (String × ℚ) :=
  [("gpt-4o", 0.02), ("gpt-4o-mini", 0.0024),
   ("gpt-4.1", 0.008), ("gpt-4.1-mini", 0.0016)]

/-- `OpenAIClient.calculate_cost` (lines 247–259): look up the unit price
with the default `0.005` for a model absent from the table, compute
`unit_price * (used_tokens / 1000.0)`, add it to `total_cost` — and to
`total_cost` only; `total_tokens` is untouched here — and return the
incremental cost. -/
def calculate_cost (model : String) (usedTokens : Nat) (st : UsageTotals) :
    ℚ × UsageTotals :=
  let unitPrice := (PRICE_PER_1K_TOKENS.lookup model).getD 0.005
  let cost := unitPrice * ((usedTokens : ℚ) / 1000)
  (cost, { st with total_cost := st.total_cost + cost })

/-- The usage-accounting step of `invoke_model` (step 5, lines 365–368): the
caller first increments `total_tokens` by the reported usage and then calls
`calculate_cost`, which adds the incremental cost to `total_cost`. -/
def usageAccounting (model : String) (usedTokens : Nat) (st : UsageTotals) :
    ℚ × UsageTotals :=
  calculate_cost model usedTokens
    { st with total_tokens := st.total_tokens + usedTokens }

/-- Concrete inputs for the batch-order witness. -/
def batchTexts : List String := ["alpha", "beta", "gamma"]

/-- A completion order distinct from the input order: the future for index 2
completes first, then 0, then 1. -/
def batchOrder : List (Fin batchTexts.length) :=
  [⟨2, by decide⟩, ⟨0, by decide⟩, ⟨1, by decide⟩]

/-- A concrete classifier standing for `review_single` in the witness. -/
def batchClassifier (s : String) : Decision × String :=
  (Decision.INCLUDE, s)

/-! ## Helper lemmas about the backoff loop -/

/-- When every underlying attempt raises, the backoff loop consumes exactly
its whole try budget and ends with an error. -/
theorem backoffRun_all_fail {R : Type} (attempt : Nat → Except PyError R)
    (h : ∀ i, ∃ e, attempt i = Except.error e) :
    ∀ n i, 1 ≤ n → ∃ e, backoffRun attempt i n = (Except.error e, n) := by
  intro n
  induction n with
  | zero => intro i h1; omega
  | succ n ih =>
    intro i _
    obtain ⟨e, he⟩ := h i
    by_cases hn : n = 0
    · subst hn
      exact ⟨e, by simp [backoffRun, he]⟩
    · obtain ⟨e2, he2⟩ := ih (i + 1) (Nat.one_le_iff_ne_zero.mpr hn)
      exact ⟨e2, by simp [backoffRun, he, hn, he2]⟩

/-- The backoff loop makes at least one underlying call when it has at least
one try. -/
theorem backoffRun_count_pos {R : Type} (attempt : Nat → Except PyError R)
    (n i : Nat) (hn : 1 ≤ n) : 1 ≤ (backoffRun attempt i n).2 := by
  cases n with
  | zero => omega
  | succ n =>
    cases he : attempt i with
    | ok r => simp [backoffRun, he]
    | error e =>
      by_cases hn0 : n = 0 <;> simp [backoffRun, he, hn0]

/-- One failing step of the backoff loop adds one to the call count of the
remaining loop. -/
theorem backoffRun_error_count {R : Type} (attempt : Nat → Except PyError R)
    (i n : Nat) (e : PyError) (he : attempt i = Except.error e) (hn : n ≠ 0) :
    (backoffRun attempt i (n + 1)).2 = (backoffRun attempt (i + 1) n).2 + 1 := by
  simp [backoffRun, he, hn]

/-- The call count reported by `call_with_retries` is the call count of the
underlying backoff loop. -/
theorem call_with_retries_count (attempt : Nat → Except PyError (Decision × String))
    (m : Nat) : (call_with_retries attempt m).2.1 = (backoffRun attempt 0 m).2 := by
  unfold call_with_retries
  rcases hb : backoffRun attempt 0 m with ⟨res, c⟩
  cases res <;> simp

/-! ## Claim theorems -/

/-- C5: `Decision.from_raw` is total and idempotent: every input (including
`None`) yields one of the three members; any input whose stripped, lowercased
form is not exactly "include", "exclude" or "unsure" yields `UNSURE`; and
applying `from_raw` to the string value of its own result returns the same
decision. -/
theorem Decision.from_raw_total_idem :
    (∀ x : Option String, Decision.from_raw x = Decision.INCLUDE ∨
        Decision.from_raw x = Decision.EXCLUDE ∨
        Decision.from_raw x = Decision.UNSURE) ∧
    (∀ s : String,
        pyLower (pyStrip s) ∉ (["include", "exclude", "unsure"] : List String) →
        Decision.from_raw (some s) = Decision.UNSURE) ∧
    (∀ x : Option String,
        Decision.from_raw (some (Decision.from_raw x).value) =
          Decision.from_raw x) := by
  refine ⟨?_, ?_, ?_⟩
  · intro x
    cases x with
    | none => exact Or.inr (Or.inr rfl)
    | some raw =>
      cases h : Decision.ofValue? (pyLower (pyStrip raw)) with
      | none => simp [Decision.from_raw, h]
      | some d => cases d <;> simp [Decision.from_raw, h]
  · intro s hs
    have h1 : pyLower (pyStrip s) ≠ "include" := fun h => hs (by simp [h])
    have h2 : pyLower (pyStrip s) ≠ "exclude" := fun h => hs (by simp [h])
    have h3 : pyLower (pyStrip s) ≠ "unsure" := fun h => hs (by simp [h])
    simp [Decision.from_raw, Decision.ofValue?, h1, h2, h3]
  · intro x
    cases x with
    | none => decide
    | some raw =>
      cases h : Decision.ofValue? (pyLower (pyStrip raw)) with
      | none =>
        have hx : Decision.from_raw (some raw) = Decision.UNSURE := by
          simp [Decision.from_raw, h]
        rw [hx]; decide
      | some d =>
        have hx : Decision.from_raw (some raw) = d := by
          simp [Decision.from_raw, h]
        rw [hx]; cases d <;> decide

/-- Witness for C5 at concrete inputs: an unrecognized label maps to
`UNSURE`, and `from_raw` is idempotent on " Include ". -/
theorem Decision.from_raw_total_idem_witness :
    Decision.from_raw (some "  maybe ") = Decision.UNSURE ∧
    Decision.from_raw (some (Decision.from_raw (some " Include ")).value) =
      Decision.from_raw (some " Include ") :=
  ⟨Decision.from_raw_total_idem.2.1 "  maybe " (by decide),
   Decision.from_raw_total_idem.2.2 (some " Include ")⟩

/-- C2: `call_with_retries` never raises (by construction it is a total
function: the outer `except` catches every exception); when every underlying
attempt raises, it makes exactly `max_retries` underlying calls — no further
calls after that — and returns the terminal result
`(UNSURE, "模型调用失败")` (the spec's "invocation failed after retries"),
logging at error severity. -/
theorem call_with_retries_exhaustion
    (attempt : Nat → Except PyError (Decision × String)) (maxRetries : Nat)
    (hmr : 1 ≤ maxRetries) (h : ∀ i, ∃ e, attempt i = Except.error e) :
    call_with_retries attempt maxRetries =
      ((Decision.UNSURE, "模型调用失败"), maxRetries, some Severity.error) := by
  obtain ⟨e, he⟩ := backoffRun_all_fail attempt h maxRetries 0 hmr
  unfold call_with_retries
  rw [he]

/-- Witness for C2: a stub that always raises a transient error, with the
default `max_retries = 8`. -/
theorem call_with_retries_exhaustion_witness :
    call_with_retries (fun _ => Except.error PyError.transient) 8 =
      ((Decision.UNSURE, "模型调用失败"), 8, some Severity.error) :=
  call_with_retries_exhaustion (fun _ => Except.error PyError.transient) 8
    (by decide) (fun _ => ⟨PyError.transient, rfl⟩)

/-- C3 counterexample: a non-transient exception (the `AttributeError` of a
non-string decision field) is NOT returned after a single underlying call —
the catch-all backoff retries it: with a first attempt raising
`attributeError` and a second attempt succeeding, `call_with_retries` makes
2 underlying calls and returns the second attempt's result. -/
theorem call_with_retries_nontransient_retried :
    call_with_retries
        (fun i => if i = 0 then Except.error PyError.attributeError
                  else Except.ok (Decision.INCLUDE, "ok")) 8 =
      ((Decision.INCLUDE, "ok"), 2, none) := by
  decide

/-- C3 amended: the backoff predicate is the catch-all `Exception` class, so
every raised exception — transient or not — triggers a retry (at least two
underlying calls are made whenever the first attempt raises and the budget
allows a second); the parsing and validation failures of `invoke_model` are
returned as ordinary values, not raised, so any attempt that returns a value
ends `call_with_retries` after exactly one underlying call with no retry. -/
theorem call_with_retries_retry_classification :
    (∀ (attempt : Nat → Except PyError (Decision × String)) (maxRetries : Nat)
        (r : Decision × String), 1 ≤ maxRetries → attempt 0 = Except.ok r →
        call_with_retries attempt maxRetries = (r, 1, none)) ∧
    (∀ (attempt : Nat → Except PyError (Decision × String)) (maxRetries : Nat)
        (e : PyError), 2 ≤ maxRetries → attempt 0 = Except.error e →
        2 ≤ (call_with_retries attempt maxRetries).2.1) := by
  constructor
  · intro attempt maxRetries r hmr h0
    obtain ⟨n, rfl⟩ : ∃ n, maxRetries = n + 1 := ⟨maxRetries - 1, by omega⟩
    simp [call_with_retries, backoffRun, h0]
  · intro attempt maxRetries e hmr h0
    obtain ⟨n, rfl⟩ : ∃ n, maxRetries = n + 2 := ⟨maxRetries - 2, by omega⟩
    rw [call_with_retries_count]
    have hpos := backoffRun_count_pos attempt (n + 1) (0 + 1) (by omega)
    show 2 ≤ (backoffRun attempt 0 (n + 1 + 1)).2
    rw [backoffRun_error_count attempt 0 (n + 1) e h0 (by omega)]
    omega

/-- Witness for the amended C3: a first-attempt value ends after one call; a
first-attempt exception is retried. -/
theorem call_with_retries_retry_classification_witness :
    call_with_retries (fun _ => Except.ok (Decision.EXCLUDE, "note")) 8 =
      ((Decision.EXCLUDE, "note"), 1, none) ∧
    2 ≤ (call_with_retries (fun _ => Except.error PyError.transient) 2).2.1 :=
  ⟨call_with_retries_retry_classification.1
      (fun _ => Except.ok (Decision.EXCLUDE, "note")) 8
      (Decision.EXCLUDE, "note") (by decide) rfl,
   call_with_retries_retry_classification.2
      (fun _ => Except.error PyError.transient) 2 PyError.transient
      (by decide) rfl⟩

/-- C4: a response body that cannot be parsed as JSON makes `invoke_model`
return `(UNSURE, "返回格式非 JSON")` (the spec's "non-JSON response") as an
ordinary value — the attempt completes normally rather than raising — and
through `call_with_retries` exactly one underlying call is made, i.e. zero
retries are triggered. -/
theorem invoke_model_non_json (provider : Nat → ProviderOutcome)
    (maxRetries : Nat) (hmr : 1 ≤ maxRetries)
    (h0 : provider 0 = ProviderOutcome.respond RespBody.notJson) :
    invoke_model (provider 0) =
      Except.ok (Decision.UNSURE, "返回格式非 JSON") ∧
    call_with_retries (fun i => invoke_model (provider i)) maxRetries =
      ((Decision.UNSURE, "返回格式非 JSON"), 1, none) := by
  have h1 : invoke_model (provider 0) =
      Except.ok (Decision.UNSURE, "返回格式非 JSON") := by
    rw [h0]; rfl
  refine ⟨h1, ?_⟩
  obtain ⟨n, rfl⟩ : ∃ n, maxRetries = n + 1 := ⟨maxRetries - 1, by omega⟩
  simp [call_with_retries, backoffRun, h1]

/-- Witness for C4: a stub provider that always answers non-JSON text. -/
theorem invoke_model_non_json_witness :
    invoke_model ((fun _ => ProviderOutcome.respond RespBody.notJson) 0) =
      Except.ok (Decision.UNSURE, "返回格式非 JSON") ∧
    call_with_retries
        (fun i => invoke_model ((fun _ => ProviderOutcome.respond RespBody.notJson) i)) 3 =
      ((Decision.UNSURE, "返回格式非 JSON"), 1, none) :=
  invoke_model_non_json (fun _ => ProviderOutcome.respond RespBody.notJson) 3
    (by decide) rfl

/-- C10: a payload that parses as valid JSON but whose `decision` field is a
non-string value escapes the degrade-to-unsure path: `invoke_model` raises
(`AttributeError` from calling `.strip()` on a non-string) instead of
returning an unsure result, and the catch-all backoff treats this as
retryable — with `max_retries = 8` all 8 attempts are consumed before the
generic terminal failure is returned. -/
theorem invoke_model_nonstring_decision :
    invoke_model (ProviderOutcome.respond
        (RespBody.jsonResp (some JDecision.nonString) "notes")) =
      Except.error PyError.attributeError ∧
    call_with_retries
        (fun _ => invoke_model (ProviderOutcome.respond
            (RespBody.jsonResp (some JDecision.nonString) "notes"))) 8 =
      ((Decision.UNSURE, "模型调用失败"), 8, some Severity.error) :=
  ⟨rfl, by decide⟩

/-- C7: when the stage3 model name is absent from the routing table, or
present but empty, `review_single` short-circuits: it returns
`(UNSURE, "模型配置缺失")` (the spec's "model configuration missing") with an
empty invocation list — no `call_with_retries` invocation happens, and since
the rate limiter is reached only inside an invocation, the sum of per-model
admission counts over the invoked models is zero for every admission-count
assignment. -/
theorem review_single_missing_model (call : String → String → Decision × String)
    (modelMap : String → Option String) (text : String)
    (h : modelMap "stage3" = none ∨ modelMap "stage3" = some "") :
    review_single call modelMap text = ((Decision.UNSURE, "模型配置缺失"), []) ∧
    ∀ admissions : String → Nat,
      ((review_single call modelMap text).2.map admissions).sum = 0 := by
  have hmain : review_single call modelMap text =
      ((Decision.UNSURE, "模型配置缺失"), []) := by
    rcases h with h | h <;> simp [review_single, reviewStages, h]
  exact ⟨hmain, fun admissions => by rw [hmain]; rfl⟩

/-- Witness for C7: a routing table with no entries at all. -/
theorem review_single_missing_model_witness :
    review_single (fun _ m => (Decision.INCLUDE, m)) (fun _ => none) "t" =
      ((Decision.UNSURE, "模型配置缺失"), []) ∧
    ((review_single (fun _ m => (Decision.INCLUDE, m)) (fun _ => none) "t").2.map
        (fun _ => 5)).sum = 0 :=
  ⟨(review_single_missing_model (fun _ m => (Decision.INCLUDE, m)) (fun _ => none)
      "t" (Or.inl rfl)).1,
   (review_single_missing_model (fun _ m => (Decision.INCLUDE, m)) (fun _ => none)
      "t" (Or.inl rfl)).2 (fun _ => 5)⟩

/-- C9: the three-stage escalation is effectively disabled: `review_single`
consults only the "stage3" entry of the routing table (its behaviour is
unchanged by any modification of the other entries), makes at most one
`call_with_retries` invocation, and every invoked model is the stage3 model —
the stage1 and stage2 models are never invoked. -/
theorem review_single_only_stage3 :
    (∀ (call : String → String → Decision × String)
        (m1 m2 : String → Option String) (text : String),
        m1 "stage3" = m2 "stage3" →
        review_single call m1 text = review_single call m2 text) ∧
    (∀ (call : String → String → Decision × String)
        (modelMap : String → Option String) (text : String),
        (review_single call modelMap text).2.length ≤ 1 ∧
        ∀ m ∈ (review_single call modelMap text).2, modelMap "stage3" = some m) := by
  constructor
  · intro call m1 m2 text h
    simp only [review_single, reviewStages, h]
  · intro call modelMap text
    cases h : modelMap "stage3" with
    | none => simp [review_single, reviewStages, h]
    | some m =>
      by_cases hm : m = ""
      · subst hm; simp [review_single, reviewStages, h]
      · simp [review_single, reviewStages, h, hm]

/-- Witness for C9: two routing tables agreeing at stage3 but differing at
stage1/stage2 give identical results, and at most one model is invoked. -/
theorem review_single_only_stage3_witness :
    review_single (fun _ m => (Decision.EXCLUDE, m)) (fun s => some s) "txt" =
      review_single (fun _ m => (Decision.EXCLUDE, m))
        (fun s => if s = "stage3" then some "stage3" else none) "txt" ∧
    (review_single (fun _ m => (Decision.EXCLUDE, m)) (fun s => some s) "txt").2.length
      ≤ 1 :=
  ⟨review_single_only_stage3.1 (fun _ m => (Decision.EXCLUDE, m)) (fun s => some s)
      (fun s => if s = "stage3" then some "stage3" else none) "txt" (by decide),
   (review_single_only_stage3.2 (fun _ m => (Decision.EXCLUDE, m))
      (fun s => some s) "txt").1⟩

/-- Writing result slots by index preserves the slot-list length. -/
theorem foldl_set_length (f : String → Decision × String) (texts : List String) :
    ∀ (order : List (Fin texts.length)) (init : List (Decision × String)),
      (order.foldl (fun results idx => results.set idx.val (f (texts.get idx)))
          init).length = init.length := by
  intro order
  induction order with
  | nil => intro init; rfl
  | cons idx rest ih =>
    intro init
    rw [List.foldl_cons, ih, List.length_set]

/-- Every write to slot `i` writes the value `f (texts.get i)`, so after the
fold a slot that was written — or that already held that value — holds it. -/
theorem foldl_set_get (f : String → Decision × String) (texts : List String) :
    ∀ (order : List (Fin texts.length)) (init : List (Decision × String)),
      init.length = texts.length →
      ∀ i : Fin texts.length,
        (i ∈ order ∨ init.get? i.val = some (f (texts.get i))) →
        (order.foldl (fun results idx => results.set idx.val (f (texts.get idx)))
            init).get? i.val = some (f (texts.get i)) := by
  intro order
  induction order with
  | nil =>
    intro init hlen i hi
    rcases hi with hi | hi
    · cases hi
    · simpa using hi
  | cons idx rest ih =>
    intro init hlen i hi
    rw [List.foldl_cons]
    apply ih
    · rw [List.length_set]; exact hlen
    · by_cases hii : i = idx
      · subst hii
        right
        exact List.get?_set_eq_of_lt _ (by rw [hlen]; exact i.isLt)
      · rcases hi with hi | hi
        · rcases List.mem_cons.mp hi with h | h
          · exact absurd h hii
          · exact Or.inl h
        · right
          rw [List.get?_set_ne _ _ (fun hv => hii (Fin.ext (hv.symm)))]
          exact hi

/-- C1: for every input list and both worker configurations (serial when
`max_workers ≤ 1`, concurrent otherwise), `review_batch` returns exactly one
result per input, and the result at index `i` is the classification of input
`i` — regardless of the completion order of the concurrent futures, because
each completed future writes into the slot at its own input index. -/
theorem review_batch_order (maxWorkers : Nat) (f : String → Decision × String)
    (texts : List String) (order : List (Fin texts.length))
    (hall : ∀ i : Fin texts.length, i ∈ order) :
    (review_batch maxWorkers f texts order).length = texts.length ∧
    ∀ i : Fin texts.length,
      (review_batch maxWorkers f texts order).get? i.val =
        some (f (texts.get i)) := by
  unfold review_batch
  by_cases hw : maxWorkers ≤ 1
  · rw [if_pos hw]
    refine ⟨List.length_map _ _, fun i => ?_⟩
    rw [List.get?_map, List.get?_eq_get i.isLt]
    rfl
  · rw [if_neg hw]
    refine ⟨?_, fun i => ?_⟩
    · rw [foldl_set_length, List.length_replicate]
    · exact foldl_set_get f texts order _ (List.length_replicate _ _) i
        (Or.inl (hall i))

/-- Witness for C1: three texts, three workers, completion order 2, 0, 1 —
the output still matches the input order slot by slot. -/
theorem review_batch_order_witness :
    (review_batch 3 batchClassifier batchTexts batchOrder).length =
      batchTexts.length ∧
    (review_batch 3 batchClassifier batchTexts batchOrder).get? 1 =
      some (batchClassifier (batchTexts.get ⟨1, by decide⟩)) :=
  ⟨(review_batch_order 3 batchClassifier batchTexts batchOrder (by decide)).1,
   (review_batch_order 3 batchClassifier batchTexts batchOrder (by decide)).2
      ⟨1, by decide⟩⟩

/-- C6 counterexample, on the fake clock (hundredths of a second) with
`tpm_limit = 100` and every request at most 100 tokens: the trace with
arrivals at 0 s, 1 s and 2 s and token counts 1, 99, 100 is admitted at
times 0, 1 s and 60.05 s, and the trailing 60-second window ending at the
third admission contains 99 + 100 = 199 admitted tokens — nearly double the
budget, far beyond any wait-buffer timing tolerance (the buffer is 0.05 s).
The single wait-then-admit pass only waits for the earliest window entry to
expire and then admits unconditionally. -/
theorem rate_limit_window_counterexample :
    runRateLimiter 100 [(0, 1), (100, 99), (200, 100)] =
      [(0, 1), (100, 99), (6005, 100)] ∧
    windowSum (runRateLimiter 100 [(0, 1), (100, 99), (200, 100)]) 6005 = 199 ∧
    100 < windowSum (runRateLimiter 100 [(0, 1), (100, 99), (200, 100)]) 6005 := by
  refine ⟨by decide, by decide, by decide⟩

/-- C6 amended: the limiter enforces the budget only at the moment of the
admission check: after purging entries older than 60 s, if the live token
sum plus the pending request fits within the budget the request is admitted
immediately and the recorded live tokens (pending included) stay within the
budget; otherwise the limiter sleeps a single wait of
`60 − (now − earliest) + 0.05` seconds and then admits unconditionally —
so the admitted trailing-window total can exceed the budget, as the
counterexample trace shows. -/
theorem rate_limit_single_pass (tpmLimit : Nat) (timestamps : List (Nat × Nat))
    (now tok : Nat) (hpos : 0 < tpmLimit) :
    ((((timestamps.filter (fun p => now - p.1 < 6000)).map Prod.snd).sum + tok
        ≤ tpmLimit) →
      rate_limit tpmLimit timestamps now tok =
        (timestamps.filter (fun p => now - p.1 < 6000) ++ [(now, tok)], now) ∧
      (((timestamps.filter (fun p => now - p.1 < 6000) ++ [(now, tok)]).map
          Prod.snd).sum ≤ tpmLimit)) ∧
    ((tpmLimit <
        ((timestamps.filter (fun p => now - p.1 < 6000)).map Prod.snd).sum + tok) →
      rate_limit tpmLimit timestamps now tok =
        (timestamps.filter (fun p => now - p.1 < 6000) ++ [(now, tok)],
         now + (6000 - (now -
           ((((timestamps.filter (fun p => now - p.1 < 6000)).map
               Prod.fst).min?).getD now)) + 5))) := by
  have h0 : ¬ tpmLimit = 0 := by omega
  constructor
  · intro hle
    have hn : ¬ (((timestamps.filter (fun p => now - p.1 < 6000)).map
        Prod.snd).sum + tok > tpmLimit) := by omega
    constructor
    · simp only [rate_limit, if_neg h0, if_neg hn]
    · rw [List.map_append, List.sum_append]
      simpa using hle
  · intro hgt
    have hn : ((timestamps.filter (fun p => now - p.1 < 6000)).map
        Prod.snd).sum + tok > tpmLimit := hgt
    simp only [rate_limit, if_neg h0, if_pos hn]

/-- Witness for the amended C6: a window holding 30 tokens admits a request
of 50 without waiting; a request of 80 triggers the single wait. -/
theorem rate_limit_single_pass_witness :
    (rate_limit 100 [(0, 30)] 10 50 =
        (([(0, 30)] : List (Nat × Nat)).filter (fun p : Nat × Nat => 10 - p.1 < 6000) ++
          [(10, 50)], 10) ∧
      ((([(0, 30)] : List (Nat × Nat)).filter (fun p : Nat × Nat => 10 - p.1 < 6000) ++
          [(10, 50)]).map Prod.snd).sum ≤ 100) ∧
    rate_limit 100 [(0, 30)] 10 80 =
      (([(0, 30)] : List (Nat × Nat)).filter (fun p : Nat × Nat => 10 - p.1 < 6000) ++
         [(10, 80)],
       10 + (6000 - (10 -
         ((((([(0, 30)] : List (Nat × Nat)).filter
             (fun p : Nat × Nat => 10 - p.1 < 6000)).map Prod.fst).min?).getD 10)) + 5)) :=
  ⟨(rate_limit_single_pass 100 [(0, 30)] 10 50 (by decide)).1 (by decide),
   (rate_limit_single_pass 100 [(0, 30)] 10 80 (by decide)).2 (by decide)⟩

/-- C8 counterexample: `calculate_cost` does not add the token count to the
running token total — starting from zeroed totals, charging 1000 tokens
leaves `total_tokens` at 0, not the claimed 0 + 1000 (the token total is
updated by the caller, not by `calculate_cost`). -/
theorem calculate_cost_tokens_counterexample :
    (calculate_cost "gpt-4o" 1000 ⟨0, 0⟩).2.total_tokens = 0 ∧
    (0 : Nat) ≠ 0 + 1000 :=
  ⟨rfl, by decide⟩

/-- C8 amended: `calculate_cost` returns `price_per_1k * n / 1000` with the
pricing-table entry for the model — falling back to the conservative default
0.005 when the model is absent, never failing — and adds exactly that amount
to the running total cost; the running token total is incremented by `n` by
its caller (`invoke_model`, step 5) immediately before `calculate_cost` runs,
so the combined usage-accounting step adds both. -/
theorem usageAccounting_adds (model : String) (usedTokens : Nat)
    (st : UsageTotals) :
    (usageAccounting model usedTokens st).1 =
      ((PRICE_PER_1K_TOKENS.lookup model).getD 0.005) *
        ((usedTokens : ℚ) / 1000) ∧
    (usageAccounting model usedTokens st).2.total_cost =
      st.total_cost + (usageAccounting model usedTokens st).1 ∧
    (usageAccounting model usedTokens st).2.total_tokens =
      st.total_tokens + usedTokens ∧
    (PRICE_PER_1K_TOKENS.lookup model = none →
      (usageAccounting model usedTokens st).1 =
        0.005 * ((usedTokens : ℚ) / 1000)) := by
  refine ⟨rfl, rfl, rfl, fun h => ?_⟩
  simp [usageAccounting, calculate_cost, h]

/-- Witness for the amended C8: a model absent from the pricing table is
charged at the default unit price. -/
theorem usageAccounting_adds_witness :
    (usageAccounting "unknown-model" 2000 ⟨5, 1⟩).1 =
      0.005 * ((2000 : ℚ) / 1000) :=
  (usageAccounting_adds "unknown-model" 2000 ⟨5, 1⟩).2.2.2 rfl

end LLMSLWI
